/-
Verification of the kirja.fi book scraper (scraper.py, config.py) against
its natural-language specification.

The Python code is shallowly embedded:
  * the adaptive rate-limiter state (rate_limit_delay, rate_limit_hits,
    stats['rate_limit_429']) is an explicit RateState record; the float
    arithmetic on the delay is modelled with exact rationals;
  * the retry loops of fetch_json / fetch_html are fuel-bounded
    state-passing functions over an abstract per-attempt response oracle;
  * pagination (fetch_all_products) is a fuel-bounded loop over an
    abstract page-response function, instrumented with the list of page
    numbers actually requested;
  * the filesystem is an association list from paths to contents;
  * network outcomes and write outcomes are explicit oracle parameters
    (a write may complete, or raise after emitting a prefix of the
    content, which models open(path, 'w') truncating followed by a
    write that fails part-way);
  * the numeric-token regex of parse_dimensions_mm is a character-level
    scanner equivalent to re.findall of the pattern digits with an
    optional comma-or-period fraction.
-/
import Mathlib

namespace Scraper

/-! ## Configuration constants (config.py) -/

/-- config.MAX_RETRIES. -/
def MAX_RETRIES : ℕ := 3

/-- config.RETRY_WAIT_MIN, seconds. -/
def RETRY_WAIT_MIN : ℚ := 2

/-- config.HTML_REQUEST_DELAY, seconds; the initial value and the floor of
the adaptive delay. -/
def HTML_REQUEST_DELAY : ℚ := 0.1

/-- config.DOWNLOAD_IMAGES. -/
def DOWNLOAD_IMAGES : Bool := true

/-- config.FETCH_HTML_METADATA. -/
def FETCH_HTML_METADATA : Bool := true

/-- config.BOOKS_DIR. -/
def BOOKS_DIR : String := "data/books"

/-- config.IMAGES_DIR. -/
def IMAGES_DIR : String := "data/images"

/-! ## Adaptive rate limiting (scraper.py lines 52-53, 110-133) -/

/-- The scraper's shared adaptive-delay state: self.rate_limit_delay,
self.rate_limit_hits and the stats['rate_limit_429'] counter. -/
structure RateState where
  rate_limit_delay : ℚ
  rate_limit_hits : ℕ
  rate_limit_429 : ℕ
deriving DecidableEq

/-- The state as initialized in KirjaFiScraper.__init__. -/
def initState : RateState :=
  { rate_limit_delay := HTML_REQUEST_DELAY, rate_limit_hits := 0, rate_limit_429 := 0 }

/-- The HTTP 429 branch of fetch_json / fetch_html (scraper.py lines
110-114 and 160-164): increment the hit counter, double the base delay
capped at 10.0 seconds, and count the throttle in the stats. -/
def onThrottled (s : RateState) : RateState :=
  { s with
    rate_limit_hits := s.rate_limit_hits + 1,
    rate_limit_delay := min (s.rate_limit_delay * 2) 10,
    rate_limit_429 := s.rate_limit_429 + 1 }

/-- The success branch of fetch_json / fetch_html (scraper.py lines
129-133 and 179-183): if rate_limit_hits is positive, decrement it
(clamped at 0), and once it reaches zero decay the base delay by the
factor 0.8, never below HTML_REQUEST_DELAY. -/
def onSuccess (s : RateState) : RateState :=
  if 0 < s.rate_limit_hits then
    let hits := max 0 (s.rate_limit_hits - 1)
    if hits = 0 then
      { s with
        rate_limit_hits := hits,
        rate_limit_delay := max HTML_REQUEST_DELAY (s.rate_limit_delay * 0.8) }
    else { s with rate_limit_hits := hits }
  else s

/-- A response event observed by the rate limiter. -/
inductive RateEvent
  | throttled
  | success
deriving DecidableEq

/-- One rate-limiter update. -/
def rateStep (e : RateEvent) (s : RateState) : RateState :=
  match e with
  | .throttled => onThrottled s
  | .success => onSuccess s

/-- The rate-limiter state after a sequence of throttle / success events. -/
def runEvents (events : List RateEvent) (s : RateState) : RateState :=
  events.foldl (fun st e => rateStep e st) s

/-! ## The fetch_json / fetch_html retry loop (scraper.py lines 98-195) -/

/-- What the server does on one attempt: HTTP 429 with an optional
numeric Retry-After header, a successful response, or a transient
transport error (aiohttp.ClientError / asyncio.TimeoutError, which also
stands for a raise_for_status failure). -/
inductive Resp
  | throttled (retryAfterHeader : Option ℚ)
  | ok
  | transientErr
deriving DecidableEq

/-- How a fetch_json / fetch_html call ends. -/
inductive FetchOutcome
  | success
  | transientRaise
  | exhausted
deriving DecidableEq

/-- Observable trace of one fetch_json / fetch_html call: its outcome,
the number of HTTP requests issued, the retry sleeps performed (throttle
waits and exponential-backoff waits), and the final shared state. -/
structure FetchTrace where
  outcome : FetchOutcome
  requests : ℕ
  sleeps : List ℚ
  state : RateState
deriving DecidableEq

/-- The attempt loop of fetch_json (scraper.py lines 102-145), fuel-bounded
by the remaining iterations of range(max_retries); attempt is the current
0-based loop index.  A throttled response updates the shared state, sleeps
the Retry-After value if present else new_delay * (attempt + 1), and
continues.  A transient error retries with backoff RETRY_WAIT_MIN * 2 ^
attempt while attempt < max_retries - 1, else re-raises.  Exhausting the
loop raises the final ClientError. -/
def fetchGo (resp : ℕ → Resp) (maxRetries : ℕ) : ℕ → ℕ → RateState → FetchTrace
  | _attempt, 0, s => ⟨.exhausted, 0, [], s⟩
  | attempt, fuel + 1, s =>
    match resp attempt with
    | .throttled ra =>
      let s1 := onThrottled s
      let wait := match ra with
        | some w => w
        | none => s1.rate_limit_delay * ((attempt : ℚ) + 1)
      let t := fetchGo resp maxRetries (attempt + 1) fuel s1
      ⟨t.outcome, t.requests + 1, wait :: t.sleeps, t.state⟩
    | .ok => ⟨.success, 1, [], onSuccess s⟩
    | .transientErr =>
      if attempt < maxRetries - 1 then
        let t := fetchGo resp maxRetries (attempt + 1) fuel s
        ⟨t.outcome, t.requests + 1, (RETRY_WAIT_MIN * 2 ^ attempt) :: t.sleeps, t.state⟩
      else ⟨.transientRaise, 1, [], s⟩

/-- fetch_json (scraper.py lines 98-145): up to MAX_RETRIES + 2 attempts. -/
def fetch_json (resp : ℕ → Resp) (s : RateState) : FetchTrace :=
  fetchGo resp (MAX_RETRIES + 2) 0 (MAX_RETRIES + 2) s

/-- fetch_html (scraper.py lines 147-195): identical control flow to
fetch_json, only the decoded payload differs. -/
def fetch_html (resp : ℕ → Resp) (s : RateState) : FetchTrace :=
  fetchGo resp (MAX_RETRIES + 2) 0 (MAX_RETRIES + 2) s

/-! ## Run statistics and logging (scraper.py lines 54-61) -/

/-- Log events relevant to the claims. -/
inductive LogEvent
  | warnMissingHandle
  | errorSavingBook
  | errorDownloadingImage
  | errorFetchingPage (page : ℕ)
deriving DecidableEq

/-- The self.stats counters touched by the claims, plus the log. -/
structure Stats where
  books_fetched : ℕ
  images_downloaded : ℕ
  errors : ℕ
  log : List LogEvent
deriving DecidableEq

/-- The counters as initialized in __init__. -/
def stats0 : Stats := ⟨0, 0, 0, []⟩

/-! ## Pagination (scraper.py lines 346-388) -/

/-- The items a page yields after fetch_collection_page's error handling:
a failed fetch (resp page = none) yields the empty list. -/
def pageItems {α : Type} (resp : ℕ → Option (List α)) (page : ℕ) : List α :=
  (resp page).getD []

/-- fetch_collection_page (scraper.py lines 346-361): resp page = some l
is a successful fetch whose products field decoded to l (a missing
products key is some []); resp page = none is a raised fetch error,
caught, logged, counted in stats['errors'], and turned into []. -/
def fetch_collection_page {α : Type} (resp : ℕ → Option (List α)) (page : ℕ)
    (st : Stats) : List α × Stats :=
  match resp page with
  | some products => (products, st)
  | none =>
    ([], { st with errors := st.errors + 1, log := st.log ++ [.errorFetchingPage page] })

/-- The while loop of fetch_all_products (scraper.py lines 370-385),
fuel-bounded by the remaining pages below max_pages = 200.  Returns the
accumulated products, the list of page numbers requested (in order), and
the final stats.  The limit argument models the Python limit parameter:
the truncation branch fires only when limit is truthy (some l with
l different from 0) and the accumulated length reaches it. -/
def fetchAllGo {α : Type} (resp : ℕ → Option (List α)) (limit : Option ℕ) :
    ℕ → ℕ → List α → Stats → List α × List ℕ × Stats
  | 0, _page, acc, st => (acc, [], st)
  | fuel + 1, page, acc, st =>
    let pr := fetch_collection_page resp page st
    if pr.1.isEmpty then (acc, [page], pr.2)
    else
      let acc2 := acc ++ pr.1
      match limit with
      | some l =>
        if l ≠ 0 ∧ l ≤ acc2.length then (acc2.take l, [page], pr.2)
        else
          let t := fetchAllGo resp limit fuel (page + 1) acc2 pr.2
          (t.1, page :: t.2.1, t.2.2)
      | none =>
        let t := fetchAllGo resp limit fuel (page + 1) acc2 pr.2
        (t.1, page :: t.2.1, t.2.2)

/-- fetch_all_products (scraper.py lines 363-388): start at page 1 with
the safety limit max_pages = 200. -/
def fetch_all_products {α : Type} (resp : ℕ → Option (List α)) (limit : Option ℕ)
    (st : Stats) : List α × List ℕ × Stats :=
  fetchAllGo resp limit 200 1 [] st

/-- Concatenation of the items of the n pages starting at page p. -/
def catFrom {α : Type} (resp : ℕ → Option (List α)) : ℕ → ℕ → List α
  | _p, 0 => []
  | p, n + 1 => pageItems resp p ++ catFrom resp (p + 1) n

/-- The page numbers p, p+1, ..., p+n-1. -/
def reqsFrom : ℕ → ℕ → List ℕ
  | _p, 0 => []
  | p, n + 1 => p :: reqsFrom (p + 1) n

/-- Concatenation of the items of pages 1..n. -/
def concatPages {α : Type} (resp : ℕ → Option (List α)) (n : ℕ) : List α :=
  catFrom resp 1 n

/-- A two-page catalog: page 1 holds one item, page 2 is empty. -/
def demoPages : ℕ → Option (List Bool) :=
  fun i => if i = 1 then some [true] else some []

/-- A catalog of 201 non-empty pages followed by an empty page: page i
holds the single item i for i up to 201, and page 202 onward is empty. -/
def cexPages : ℕ → Option (List ℕ) :=
  fun i => if i ≤ 201 then some [i] else some []

/-! ## Filesystem model -/

/-- The filesystem: newest association wins on lookup. -/
abbrev FS := List (String × String)

/-- Path.exists. -/
def fileExists (fs : FS) (p : String) : Bool :=
  (List.lookup p fs).isSome

/-- Record a file's full content at a path. -/
def fsWrite (fs : FS) (p content : String) : FS :=
  (p, content) :: fs

/-- The current content of a path, if the file exists. -/
def fileContent (fs : FS) (p : String) : Option String :=
  List.lookup p fs

/-- The first k characters of a string (a prefix of a content string). -/
def strTake (s : String) (k : ℕ) : String :=
  String.mk (s.data.take k)

/-! ## Products, saving (scraper.py lines 390-436) -/

/-- An entry of a product's images list; image.get('src', '') collapses a
missing src key to the empty string. -/
structure PImage where
  src : String
deriving DecidableEq

/-- An entry of a product's variants list; only the sku field is read. -/
structure PVariant where
  sku : String
deriving DecidableEq

/-- The fields of a product dict that the pipeline reads.  handle = none
models a dict without a handle key (product.get('handle', '') yields ''),
id = none a dict without an id key. -/
structure Product where
  handle : Option String
  id : Option ℕ
  images : List PImage
  variants : List PVariant
deriving DecidableEq

/-- The HTML metadata mapping attached to a product before saving. -/
abbrev HtmlMeta := List (String × String)

/-- Render the metadata pairs into the serialized record. -/
def joinPairs (md : HtmlMeta) : String :=
  (md.map (fun kv => kv.1 ++ "=" ++ kv.2)).foldl (fun a b => a ++ ";" ++ b) ""

/-- The serialized record json.dumps produces for the enriched product
(modelled as a definite string of the embedded fields). -/
def bookJson (p : Product) (md : HtmlMeta) : String :=
  "\x7b\"handle\": \"" ++ p.handle.getD "" ++ "\", \"meta\": \"" ++ joinPairs md ++ "\"\x7d"

/-- The destination path BOOKS_DIR / handle.json. -/
def bookPath (handle : String) : String :=
  BOOKS_DIR ++ "/" ++ handle ++ ".json"

/-- Outcome of the file write in save_book_data.  ok: the write completes.
raiseAfter k: open(filepath, 'w') truncated the file and the write raised
after k characters of the content had been emitted (k = 0 covers a write
that fails immediately after the truncating open). -/
inductive WriteEff
  | ok
  | raiseAfter (k : ℕ)
deriving DecidableEq

/-- save_book_data (scraper.py lines 390-436): an empty or missing handle
is logged and rejected before any write; otherwise the enriched record is
written to BOOKS_DIR/handle.json and books_fetched is incremented; an
exception during the write is caught, logged, and counted in errors,
returning False and leaving whatever prefix the failed write emitted. -/
def save_book_data (fs : FS) (st : Stats) (product : Product)
    (html_metadata : HtmlMeta) (eff : WriteEff) : Bool × FS × Stats :=
  let handle := product.handle.getD ""
  if handle = "" then
    (false, fs, { st with log := st.log ++ [.warnMissingHandle] })
  else
    let content := bookJson product html_metadata
    let filepath := bookPath handle
    match eff with
    | .ok =>
      (true, fsWrite fs filepath content,
        { st with books_fetched := st.books_fetched + 1 })
    | .raiseAfter k =>
      (false, fsWrite fs filepath (strTake content k),
        { st with errors := st.errors + 1, log := st.log ++ [.errorSavingBook] })

/-! ## Image downloads (scraper.py lines 197-218, 438-484) -/

/-- download_image (scraper.py lines 203-218): if the destination exists,
return True with no request; otherwise issue the request and write the
body.  netOk = true means the download succeeds on the first attempt
(one request); netOk = false means every attempt fails, the tenacity
decorator issuing MAX_RETRIES requests before re-raising (result none). -/
def download_image (netOk : Bool) (fs : FS) (filepath content : String) :
    Option FS × ℕ :=
  if fileExists fs filepath then (some fs, 0)
  else if netOk then (some (fsWrite fs filepath content), 1)
  else (none, MAX_RETRIES)

/-- The bytes fetched from an image URL (modelled as a definite string of
the URL). -/
def imageBytes (url : String) : String :=
  "bytes:" ++ url

/-- Scan for the characters after the first "://" of a URL, if any. -/
def afterSchemeGo : List Char → Option (List Char)
  | ':' :: '/' :: '/' :: rest => some rest
  | _ :: cs => afterSchemeGo cs
  | [] => none

/-- urlparse(url).path: with a scheme, the part of the URL from the first
slash after the host; without one, the whole string; in both cases cut at
a query or fragment marker. -/
def urlPathChars (url : List Char) : List Char :=
  let afterHost :=
    match afterSchemeGo url with
    | some rest => rest.dropWhile (fun c => c ≠ '/')
    | none => url
  afterHost.takeWhile (fun c => c ≠ '?' ∧ c ≠ '#')

/-- str.split on a single character, accumulator-passing. -/
def splitOnCharGo (sep : Char) : List Char → List Char → List (List Char)
  | [], acc => [acc.reverse]
  | c :: cs, acc =>
    if c = sep then acc.reverse :: splitOnCharGo sep cs []
    else splitOnCharGo sep cs (c :: acc)

/-- str.split on a single character. -/
def splitOnChar (sep : Char) (l : List Char) : List (List Char) :=
  splitOnCharGo sep l []

/-- The local filename for image number idx of a product (scraper.py lines
463-472): extension from the URL path's final dot-separated segment
(defaulting to jpg), base name isbn with a _idx suffix beyond index 0. -/
def imageFilename (isbn : String) (idx : ℕ) (imageUrl : String) : String :=
  let path := urlPathChars imageUrl.data
  let path_parts := splitOnChar '.' path
  let ext : String :=
    if path_parts.length > 1 then
      String.mk ((splitOnChar '?' (path_parts.getLastD [])).headD [])
    else "jpg"
  if idx = 0 then isbn ++ "." ++ ext
  else isbn ++ "_" ++ toString idx ++ "." ++ ext

/-- The per-image loop of download_book_images (scraper.py lines 457-483):
a missing URL is skipped; a successful (or already-present) download
increments the local count and images_downloaded; a failed download is
caught, logged, and counted in errors, and the loop continues. -/
def imagesLoop (net : ℕ → Bool) (isbn : String) :
    List PImage → ℕ → ℕ → FS → Stats → ℕ × FS × Stats
  | [], _idx, count, fs, st => (count, fs, st)
  | image :: rest, idx, count, fs, st =>
    let image_url := image.src
    if image_url = "" then imagesLoop net isbn rest (idx + 1) count fs st
    else
      let filepath := IMAGES_DIR ++ "/" ++ imageFilename isbn idx image_url
      match download_image (net idx) fs filepath (imageBytes image_url) with
      | (some fs2, _n) =>
        imagesLoop net isbn rest (idx + 1) (count + 1) fs2
          { st with images_downloaded := st.images_downloaded + 1 }
      | (none, _n) =>
        imagesLoop net isbn rest (idx + 1) count fs
          { st with errors := st.errors + 1, log := st.log ++ [.errorDownloadingImage] }

/-- download_book_images (scraper.py lines 438-484). -/
def download_book_images (net : ℕ → Bool) (product : Product) (fs : FS)
    (st : Stats) : ℕ × FS × Stats :=
  if !DOWNLOAD_IMAGES then (0, fs, st)
  else if product.images = [] then (0, fs, st)
  else
    let isbn0 := match product.variants with
      | [] => ""
      | v :: _ => v.sku
    let isbn := if isbn0 = "" then
        (match product.id with
        | some i => toString i
        | none => "")
      else isbn0
    imagesLoop net isbn product.images 0 0 fs st

/-! ## Per-product processing (scraper.py lines 332-344, 486-507) -/

/-- The environment outcomes one process_product call sees: the result of
the HTML metadata fetch+parse (none models a raised fetch error, caught
inside fetch_product_metadata and degraded to an empty mapping), the
write outcome inside save_book_data, and the per-image network oracle. -/
structure Oracles where
  htmlResult : Option HtmlMeta
  writeEff : WriteEff
  net : ℕ → Bool

/-- fetch_product_metadata (scraper.py lines 332-344): disabled means an
empty mapping; a raised error is caught and degraded to an empty mapping. -/
def fetch_product_metadata (enabled : Bool) (htmlResult : Option HtmlMeta) : HtmlMeta :=
  if !enabled then [] else htmlResult.getD []

/-- process_product (scraper.py lines 486-507): fetch metadata when
enabled and the handle is non-empty, save (the boolean result is not
inspected), download images, return True.  Every stage catches its own
exceptions, so in this model no exception reaches the outer handler and
the False branch is unreachable. -/
def process_product (p : Product) (o : Oracles) (fs : FS) (st : Stats) :
    Bool × FS × Stats :=
  let handle := p.handle.getD ""
  let html_metadata :=
    if FETCH_HTML_METADATA && !(handle = "") then
      fetch_product_metadata FETCH_HTML_METADATA o.htmlResult
    else []
  let r1 := save_book_data fs st p html_metadata o.writeEff
  let r2 := download_book_images o.net p r1.2.1 r1.2.2
  (true, r2.2.1, r2.2.2)

/-- The effects of one batch of asyncio.gather over process_product
(scraper.py lines 558-561), sequentialized. -/
def process_batch (batch : List (Product × Oracles)) (fs : FS) (st : Stats) :
    FS × Stats :=
  match batch with
  | [] => (fs, st)
  | (p, o) :: rest =>
    let r := process_product p o fs st
    process_batch rest r.2.1 r.2.2

/-- A product with one image URL whose download fails on every attempt. -/
def imgFailProd : Product :=
  ⟨some "book-a", none, [⟨"https://cdn.example.com/a.jpg"⟩], [⟨"9781111111111"⟩]⟩

/-- Oracles for imgFailProd: metadata fine, save fine, every image
download fails. -/
def imgFailOracle : Oracles :=
  ⟨some [], .ok, fun _ => false⟩

/-- A product with two image URLs. -/
def twoImgProd : Product :=
  ⟨some "book-b", none,
    [⟨"https://cdn.example.com/b1.jpg"⟩, ⟨"https://cdn.example.com/b2.png"⟩],
    [⟨"9782222222222"⟩]⟩

/-- Oracles for twoImgProd: the first image download fails, the second
succeeds. -/
def twoImgOracle : Oracles :=
  ⟨some [], .ok, fun i => decide (i = 1)⟩

/-- A sibling product with no images. -/
def siblingProd : Product :=
  ⟨some "book-c", none, [], []⟩

/-- Oracles for siblingProd. -/
def siblingOracle : Oracles :=
  ⟨some [], .ok, fun _ => true⟩

/-- A product with a valid handle, used for the save atomicity analysis. -/
def c9prod : Product := ⟨some "abc", none, [], []⟩

/-- A product without a handle key. -/
def noHandleProd : Product := ⟨none, none, [], []⟩

/-! ## HTML metadata parsing: dimensions (scraper.py lines 226-229, 277-290,
318-320) -/

/-- Python regex whitespace over the character sets these strings use. -/
def isPySpace (c : Char) : Bool :=
  c = ' ' ∨ c = '\t' ∨ c = '\n' ∨ c = '\r' ∨ c = '\x0b' ∨ c = '\x0c'

/-- re.sub of one-or-more whitespace to a single space (clean_text line
228), accumulator flag: inside a whitespace run. -/
def collapseWSGo : List Char → Bool → List Char
  | [], _ => []
  | c :: cs, inWS =>
    if isPySpace c then
      if inWS then collapseWSGo cs true else ' ' :: collapseWSGo cs true
    else c :: collapseWSGo cs false

/-- str.strip of surrounding whitespace. -/
def stripChars (l : List Char) : List Char :=
  ((l.dropWhile isPySpace).reverse.dropWhile isPySpace).reverse

/-- clean_text (scraper.py lines 226-229): replace non-breaking spaces by
spaces, collapse whitespace runs, strip. -/
def cleanChars (l : List Char) : List Char :=
  stripChars (collapseWSGo (l.map (fun c => if c = ' ' then ' ' else c)) false)

/-- clean_text as a string function. -/
def clean_text (s : String) : String :=
  String.mk (cleanChars s.data)

/-- One match of the numeric-token regex: the digits before and after the
optional comma-or-period separator. -/
structure NumTok where
  intPart : List Char
  fracPart : List Char
deriving DecidableEq

/-- State of the character scanner equivalent to re.findall of the
numeric-token pattern. -/
inductive ScanSt
  | outside
  | inInt (ds : List Char)
  | afterSep (ds : List Char)
  | inFrac (ds : List Char) (fs : List Char)
deriving DecidableEq

/-- The token pending in a scanner state at end of input. -/
def flushScan : ScanSt → List NumTok
  | .outside => []
  | .inInt ds => [⟨ds, []⟩]
  | .afterSep ds => [⟨ds, []⟩]
  | .inFrac ds fs => [⟨ds, fs⟩]

/-- Left-to-right scan producing the matches of the pattern: one or more
digits, optionally followed by a period or comma and one or more digits.
A separator not followed by a digit is not part of the match, exactly as
in the regex. -/
def findNumsGo : ScanSt → List Char → List NumTok
  | st, [] => flushScan st
  | .outside, c :: cs =>
    if c.isDigit then findNumsGo (.inInt [c]) cs else findNumsGo .outside cs
  | .inInt ds, c :: cs =>
    if c.isDigit then findNumsGo (.inInt (ds ++ [c])) cs
    else if c = '.' ∨ c = ',' then findNumsGo (.afterSep ds) cs
    else ⟨ds, []⟩ :: findNumsGo .outside cs
  | .afterSep ds, c :: cs =>
    if c.isDigit then findNumsGo (.inFrac ds [c]) cs
    else ⟨ds, []⟩ :: findNumsGo .outside cs
  | .inFrac ds fs, c :: cs =>
    if c.isDigit then findNumsGo (.inFrac ds (fs ++ [c])) cs
    else ⟨ds, fs⟩ :: findNumsGo .outside cs

/-- re.findall of the numeric-token pattern over a character list. -/
def findNums (l : List Char) : List NumTok :=
  findNumsGo .outside l

/-- The natural number a digit run denotes. -/
def digitsToNat (ds : List Char) : ℕ :=
  ds.foldl (fun a c => a * 10 + (c.toNat - '0'.toNat)) 0

/-- float(token) after the comma was replaced by a period, as an exact
rational. -/
def tokVal (t : NumTok) : ℚ :=
  (digitsToNat t.intPart : ℚ) + (digitsToNat t.fracPart : ℚ) / (10 : ℚ) ^ t.fracPart.length

/-- Python round: to the nearest integer, ties to the even integer. -/
def pyRound (q : ℚ) : ℤ :=
  let fl := ⌊q⌋
  let frac := q - (fl : ℚ)
  if frac < 1 / 2 then fl
  else if 1 / 2 < frac then fl + 1
  else if fl % 2 = 0 then fl else fl + 1

/-- parse_dimensions_mm (scraper.py lines 277-290): clean the text,
normalize the multiplication sign to x, collect the numeric tokens; fewer
than two tokens yield None, else the first three tokens each rounded to
an integer.  (The ValueError branch of the source is unreachable: every
token the regex finds parses as a float.) -/
def parse_dimensions_mm (text : String) : Option (List ℤ) :=
  let t := (cleanChars text.data).map (fun c => if c = '×' then 'x' else c)
  let nums := findNums t
  if nums.length < 2 then none
  else some ((nums.take 3).map (fun n => pyRound (tokVal n)))

/-- The value stored for the Mitat field. -/
inductive FieldValue
  | dims (ds : List ℤ)
  | text (s : String)
deriving DecidableEq

/-- The Mitat branch of parse_html_metadata (scraper.py lines 318-320):
the parsed triple when parsing succeeds, else the value unchanged. -/
def mitatValue (value : String) : FieldValue :=
  match parse_dimensions_mm value with
  | some ds => .dims ds
  | none => .text value

/-! ## Rate-limiter lemmas -/

theorem onThrottled_delay (s : RateState) :
    (onThrottled s).rate_limit_delay = min (s.rate_limit_delay * 2) 10 := rfl

theorem onThrottled_delay_le (s : RateState) :
    (onThrottled s).rate_limit_delay ≤ 10 :=
  min_le_right _ _

theorem onThrottled_delay_ge (s : RateState)
    (h : HTML_REQUEST_DELAY ≤ s.rate_limit_delay) :
    HTML_REQUEST_DELAY ≤ (onThrottled s).rate_limit_delay := by
  have hd : (0 : ℚ) ≤ s.rate_limit_delay :=
    le_trans (by norm_num [HTML_REQUEST_DELAY]) h
  refine le_min ?_ (by norm_num [HTML_REQUEST_DELAY])
  have : s.rate_limit_delay ≤ s.rate_limit_delay * 2 := by linarith
  exact le_trans h this

theorem onSuccess_delay_le (s : RateState)
    (h : HTML_REQUEST_DELAY ≤ s.rate_limit_delay) :
    (onSuccess s).rate_limit_delay ≤ s.rate_limit_delay := by
  have hd : (0 : ℚ) ≤ s.rate_limit_delay :=
    le_trans (by norm_num [HTML_REQUEST_DELAY]) h
  by_cases h1 : 0 < s.rate_limit_hits
  · by_cases h2 : max 0 (s.rate_limit_hits - 1) = 0
    · simp only [onSuccess, if_pos h1, if_pos h2]
      refine max_le h ?_
      nlinarith
    · simp only [onSuccess, if_pos h1, if_neg h2]
      exact le_refl _
  · simp only [onSuccess, if_neg h1]
    exact le_refl _

theorem onSuccess_delay_ge (s : RateState)
    (h : HTML_REQUEST_DELAY ≤ s.rate_limit_delay) :
    HTML_REQUEST_DELAY ≤ (onSuccess s).rate_limit_delay := by
  by_cases h1 : 0 < s.rate_limit_hits
  · by_cases h2 : max 0 (s.rate_limit_hits - 1) = 0
    · simp only [onSuccess, if_pos h1, if_pos h2]
      exact le_max_left _ _
    · simp only [onSuccess, if_pos h1, if_neg h2]
      exact h
  · simp only [onSuccess, if_neg h1]
    exact h

theorem onSuccess_delay_le_ten (s : RateState)
    (h0 : HTML_REQUEST_DELAY ≤ s.rate_limit_delay)
    (h : s.rate_limit_delay ≤ 10) :
    (onSuccess s).rate_limit_delay ≤ 10 :=
  le_trans (onSuccess_delay_le s h0) h

theorem onSuccess_hits (s : RateState) (h : 0 < s.rate_limit_hits) :
    (onSuccess s).rate_limit_hits = s.rate_limit_hits - 1 := by
  by_cases h2 : max 0 (s.rate_limit_hits - 1) = 0
  · simp only [onSuccess, if_pos h, if_pos h2]
    omega
  · simp only [onSuccess, if_pos h, if_neg h2]
    omega

/-- The range invariant for the base delay. -/
def delayInRange (s : RateState) : Prop :=
  HTML_REQUEST_DELAY ≤ s.rate_limit_delay ∧ s.rate_limit_delay ≤ 10

theorem rateStep_range (e : RateEvent) (s : RateState) (h : delayInRange s) :
    delayInRange (rateStep e s) := by
  obtain ⟨hlo, hhi⟩ := h
  cases e with
  | throttled => exact ⟨onThrottled_delay_ge s hlo, onThrottled_delay_le s⟩
  | success => exact ⟨onSuccess_delay_ge s hlo, onSuccess_delay_le_ten s hlo hhi⟩

theorem runEvents_range (events : List RateEvent) (s : RateState)
    (h : delayInRange s) : delayInRange (runEvents events s) := by
  induction events generalizing s with
  | nil => exact h
  | cons e rest ih => exact ih (rateStep e s) (rateStep_range e s h)

theorem onSuccess_iter_range (k : ℕ) (s : RateState) (h : delayInRange s) :
    delayInRange (onSuccess^[k] s) := by
  induction k generalizing s with
  | zero => exact h
  | succ m ih =>
    rw [Function.iterate_succ_apply]
    exact ih (onSuccess s) ⟨onSuccess_delay_ge s h.1, onSuccess_delay_le_ten s h.1 h.2⟩

theorem onSuccess_iter_delay_le (k : ℕ) (s : RateState) (h : delayInRange s) :
    (onSuccess^[k] s).rate_limit_delay ≤ s.rate_limit_delay := by
  induction k generalizing s with
  | zero => exact le_refl _
  | succ m ih =>
    rw [Function.iterate_succ_apply]
    exact le_trans
      (ih (onSuccess s) ⟨onSuccess_delay_ge s h.1, onSuccess_delay_le_ten s h.1 h.2⟩)
      (onSuccess_delay_le s h.1)

theorem onThrottled_iter_le_ten (n : ℕ) (s : RateState) (h : 1 ≤ n) :
    (onThrottled^[n] s).rate_limit_delay ≤ 10 := by
  obtain ⟨m, rfl⟩ := Nat.exists_eq_add_of_le h
  rw [Nat.add_comm, Function.iterate_succ_apply']
  exact onThrottled_delay_le _

/-- The all-throttle response sequence. -/
def allThrottle : ℕ → Resp := fun _ => Resp.throttled none

theorem fetchGo_allThrottle (m : ℕ) : ∀ (fuel attempt : ℕ) (s : RateState),
    (fetchGo allThrottle m attempt fuel s).outcome = FetchOutcome.exhausted
    ∧ (fetchGo allThrottle m attempt fuel s).requests = fuel
    ∧ (fetchGo allThrottle m attempt fuel s).sleeps.length = fuel
    ∧ (fetchGo allThrottle m attempt fuel s).state = onThrottled^[fuel] s := by
  intro fuel
  induction fuel with
  | zero => intro attempt s; simp [fetchGo]
  | succ f ih =>
    intro attempt s
    obtain ⟨h1, h2, h3, h4⟩ := ih (attempt + 1) (onThrottled s)
    refine ⟨?_, ?_, ?_, ?_⟩ <;>
      simp only [fetchGo, allThrottle, List.length_cons, Function.iterate_succ_apply]
    · exact h1
    · rw [h2]
    · rw [h3]
    · exact h4

/-! ## C2, C3 -/

/-- C2: every HTTP 429 handled by fetch_json or fetch_html updates the
base delay to exactly min(previousDelay * 2, 10.0), and across
arbitrarily many consecutive throttle events (at least one) the base
delay never exceeds the ceiling of 10 seconds; an all-throttle fetch_json
call applies exactly this update once per attempt. -/
theorem c2_throttle_delay_update (s : RateState) (n : ℕ) (hn : 1 ≤ n) :
    (onThrottled s).rate_limit_delay = min (s.rate_limit_delay * 2) 10
    ∧ (onThrottled^[n] s).rate_limit_delay ≤ 10
    ∧ (fetch_json allThrottle s).state = onThrottled^[MAX_RETRIES + 2] s
    ∧ (fetch_html allThrottle s).state = onThrottled^[MAX_RETRIES + 2] s := by
  refine ⟨rfl, onThrottled_iter_le_ten n s hn, ?_, ?_⟩
  · exact (fetchGo_allThrottle (MAX_RETRIES + 2) (MAX_RETRIES + 2) 0 s).2.2.2
  · exact (fetchGo_allThrottle (MAX_RETRIES + 2) (MAX_RETRIES + 2) 0 s).2.2.2

theorem c2_throttle_delay_update_witness :
    (onThrottled^[1] initState).rate_limit_delay ≤ 10 :=
  (c2_throttle_delay_update initState 1 le_rfl).2.1

/-- C3: starting from any state whose base delay lies in the range from
the HTML_REQUEST_DELAY floor to the 10-second ceiling, the delay stays in
that range under every sequence of throttle and success events; each
success with the throttle counter above zero decrements the counter; and
over consecutive successes the delay decays monotonically (every further
success keeps it non-increasing) while never dropping below the floor. -/
theorem c3_delay_range_and_decay (s : RateState) (events : List RateEvent)
    (k : ℕ) (hlo : HTML_REQUEST_DELAY ≤ s.rate_limit_delay)
    (hhi : s.rate_limit_delay ≤ 10) (hhits : 0 < s.rate_limit_hits) :
    (HTML_REQUEST_DELAY ≤ (runEvents events s).rate_limit_delay
      ∧ (runEvents events s).rate_limit_delay ≤ 10)
    ∧ (onSuccess s).rate_limit_hits = s.rate_limit_hits - 1
    ∧ (onSuccess^[k] s).rate_limit_delay ≤ s.rate_limit_delay
    ∧ (onSuccess^[k + 1] s).rate_limit_delay ≤ (onSuccess^[k] s).rate_limit_delay
    ∧ HTML_REQUEST_DELAY ≤ (onSuccess^[k] s).rate_limit_delay := by
  have hr : delayInRange s := ⟨hlo, hhi⟩
  have hk : delayInRange (onSuccess^[k] s) := onSuccess_iter_range k s hr
  refine ⟨runEvents_range events s hr, onSuccess_hits s hhits,
    onSuccess_iter_delay_le k s hr, ?_, hk.1⟩
  rw [Function.iterate_succ_apply']
  exact onSuccess_delay_le _ hk.1

theorem c3_delay_range_and_decay_witness :
    (onSuccess (⟨2, 1, 3⟩ : RateState)).rate_limit_hits = 0 :=
  (c3_delay_range_and_decay ⟨2, 1, 3⟩ [] 0 (by norm_num [HTML_REQUEST_DELAY])
    (by norm_num) (by norm_num)).2.1

/-! ## Retry-loop lemmas and C4 -/

theorem fetchGo_requests_le (resp : ℕ → Resp) (m : ℕ) :
    ∀ (fuel attempt : ℕ) (s : RateState),
    (fetchGo resp m attempt fuel s).requests ≤ fuel := by
  intro fuel
  induction fuel with
  | zero => intro attempt s; simp [fetchGo]
  | succ f ih =>
    intro attempt s
    cases hr : resp attempt with
    | throttled ra =>
      simp only [fetchGo, hr]
      have h := ih (attempt + 1) (onThrottled s)
      omega
    | ok => simp [fetchGo, hr]
    | transientErr =>
      simp only [fetchGo, hr]
      by_cases hlt : attempt < m - 1
      · simp only [if_pos hlt]
        have h := ih (attempt + 1) s
        omega
      · simp only [if_neg hlt]
        omega

theorem fetchGo_noTransient (resp : ℕ → Resp) (m : ℕ)
    (h : ∀ i, resp i ≠ Resp.transientErr) : ∀ (fuel attempt : ℕ) (s : RateState),
    (fetchGo resp m attempt fuel s).outcome ≠ FetchOutcome.transientRaise := by
  intro fuel
  induction fuel with
  | zero => intro attempt s; simp [fetchGo]
  | succ f ih =>
    intro attempt s
    cases hr : resp attempt with
    | throttled ra =>
      simp only [fetchGo, hr]
      exact ih (attempt + 1) (onThrottled s)
    | ok => simp [fetchGo, hr]
    | transientErr => exact absurd hr (h attempt)

/-- A 429 on the first attempt followed by a success. -/
def throttleThenOk : ℕ → Resp :=
  fun i => if i = 0 then Resp.throttled none else Resp.ok

/-- C4: in fetch_json (and fetch_html, which is the same loop), a 429
response triggers a sleep and a retry rather than the transient-error
raise: responses that are only throttles or successes can never end in
the transient-error raise, throttle retries loop to the overall attempt
cap of MAX_RETRIES + 2 attempts (an all-throttle call issues exactly
MAX_RETRIES + 2 requests, each 429 followed by a sleep, and only then
gives up), a throttle on the first attempt is followed by a second
request, and no call ever issues more than MAX_RETRIES + 2 requests. -/
theorem c4_throttle_retry_budget (resp : ℕ → Resp) (s s2 : RateState)
    (h : ∀ i, resp i ≠ Resp.transientErr) :
    (fetch_json resp s).outcome ≠ FetchOutcome.transientRaise
    ∧ (∀ (r : ℕ → Resp) (s3 : RateState), (fetch_json r s3).requests ≤ MAX_RETRIES + 2)
    ∧ (fetch_json allThrottle s2).outcome = FetchOutcome.exhausted
    ∧ (fetch_json allThrottle s2).requests = MAX_RETRIES + 2
    ∧ (fetch_json allThrottle s2).sleeps.length = MAX_RETRIES + 2
    ∧ (fetch_json throttleThenOk initState).outcome = FetchOutcome.success
    ∧ (fetch_json throttleThenOk initState).requests = 2
    ∧ fetch_html = fetch_json := by
  obtain ⟨a1, a2, a3, _⟩ := fetchGo_allThrottle (MAX_RETRIES + 2) (MAX_RETRIES + 2) 0 s2
  exact ⟨fetchGo_noTransient resp (MAX_RETRIES + 2) h (MAX_RETRIES + 2) 0 s,
    fun r s3 => fetchGo_requests_le r (MAX_RETRIES + 2) (MAX_RETRIES + 2) 0 s3,
    a1, a2, a3, by decide, by decide, rfl⟩

theorem c4_throttle_retry_budget_witness :
    (fetch_json (fun _ => Resp.ok) initState).outcome ≠ FetchOutcome.transientRaise :=
  (c4_throttle_retry_budget (fun _ => Resp.ok) initState initState
    (fun _ hh => Resp.noConfusion hh)).1

/-! ## Pagination lemmas and C1 -/

theorem isEmpty_false_of_ne {α : Type} (l : List α) (h : l ≠ []) :
    l.isEmpty = false := by
  cases l with
  | nil => exact absurd rfl h
  | cons a t => rfl

theorem fetch_collection_page_nonempty {α : Type} (resp : ℕ → Option (List α))
    (page : ℕ) (st : Stats) (h : pageItems resp page ≠ []) :
    fetch_collection_page resp page st = (pageItems resp page, st) := by
  cases hr : resp page with
  | some l => simp [fetch_collection_page, pageItems, hr]
  | none => exact absurd (by simp [pageItems, hr]) h

theorem mem_reqsFrom (x : ℕ) : ∀ (n p : ℕ), x ∈ reqsFrom p n ↔ p ≤ x ∧ x < p + n := by
  intro n
  induction n with
  | zero => intro p; simp [reqsFrom]
  | succ m ih =>
    intro p
    simp only [reqsFrom, List.mem_cons, ih (p + 1)]
    omega

theorem fetchAllGo_cap {α : Type} (resp : ℕ → Option (List α)) :
    ∀ (fuel page : ℕ) (acc : List α) (st : Stats),
    (∀ i, page ≤ i → i < page + fuel → pageItems resp i ≠ []) →
    fetchAllGo resp none fuel page acc st
      = (acc ++ catFrom resp page fuel, reqsFrom page fuel, st) := by
  intro fuel
  induction fuel with
  | zero => intro page acc st _h; simp [fetchAllGo, catFrom, reqsFrom]
  | succ f ih =>
    intro page acc st h
    have hp : pageItems resp page ≠ [] := h page le_rfl (by omega)
    have hrec := ih (page + 1) (acc ++ pageItems resp page) st
      (fun i h1 h2 => h i (by omega) (by omega))
    simp only [fetchAllGo, fetch_collection_page_nonempty resp page st hp,
      isEmpty_false_of_ne _ hp, Bool.false_eq_true, if_false, hrec, catFrom, reqsFrom,
      List.append_assoc]

theorem fetch_collection_page_fst {α : Type} (resp : ℕ → Option (List α))
    (page : ℕ) (st : Stats) :
    (fetch_collection_page resp page st).1 = pageItems resp page := by
  cases hr : resp page <;> simp [fetch_collection_page, pageItems, hr]

theorem fetchAllGo_reach {α : Type} (resp : ℕ → Option (List α)) (N : ℕ)
    (hempty : pageItems resp (N + 1) = []) :
    ∀ (fuel page : ℕ) (acc : List α) (st : Stats),
    page ≤ N + 1 → N + 1 < page + fuel →
    (∀ i, page ≤ i → i ≤ N → pageItems resp i ≠ []) →
    (fetchAllGo resp none fuel page acc st).1 = acc ++ catFrom resp page (N + 1 - page)
    ∧ (fetchAllGo resp none fuel page acc st).2.1 = reqsFrom page (N + 2 - page) := by
  intro fuel
  induction fuel with
  | zero => intro page acc st h1 h2 _h3; omega
  | succ f ih =>
    intro page acc st h1 h2 h3
    by_cases hpage : page = N + 1
    · subst hpage
      have hemp : ((fetch_collection_page resp (N + 1) st).1).isEmpty = true := by
        rw [fetch_collection_page_fst, hempty]; rfl
      have e1 : N + 1 - (N + 1) = 0 := by omega
      have e2 : N + 2 - (N + 1) = 1 := by omega
      rw [e1, e2]
      constructor <;> simp only [fetchAllGo, hemp, if_true] <;>
        simp [catFrom, reqsFrom]
    · have hle : page ≤ N := by omega
      have hp : pageItems resp page ≠ [] := h3 page le_rfl hle
      obtain ⟨ih1, ih2⟩ := ih (page + 1) (acc ++ pageItems resp page) st
        (by omega) (by omega) (fun i hi1 hi2 => h3 i (by omega) hi2)
      have e1 : N + 2 - (page + 1) = N + 1 - page := by omega
      have e2 : N + 1 - (page + 1) = N - page := by omega
      rw [e1] at ih2
      rw [e2] at ih1
      have hk1 : N + 1 - page = (N - page) + 1 := by omega
      have hk2 : N + 2 - page = (N + 1 - page) + 1 := by omega
      constructor <;>
        simp only [fetchAllGo, fetch_collection_page_nonempty resp page st hp,
          isEmpty_false_of_ne _ hp, Bool.false_eq_true, if_false]
      · rw [ih1, hk1]
        simp [catFrom, List.append_assoc]
      · rw [ih2, hk2, hk1]
        simp [reqsFrom]

/-- C1 (amended with N ≤ 200, the safety limit): for every response
sequence in which pages 1..N are non-empty and page N+1 is empty or
fails (yielding an empty list), with N at most the safety limit 200,
fetch_all_products with no item limit returns exactly the concatenation
of the items of pages 1..N in page order, issues no request for page
N+2, and never requests a page number above 200. -/
theorem c1_fetch_all_pages {α : Type} (resp : ℕ → Option (List α)) (N : ℕ)
    (st : Stats) (hN : N ≤ 200)
    (hne : ∀ i, 1 ≤ i → i ≤ N → pageItems resp i ≠ [])
    (hempty : pageItems resp (N + 1) = []) :
    (fetch_all_products resp none st).1 = concatPages resp N
    ∧ N + 2 ∉ (fetch_all_products resp none st).2.1
    ∧ ∀ r ∈ (fetch_all_products resp none st).2.1, r ≤ 200 := by
  rcases eq_or_lt_of_le hN with h200 | hlt
  · subst h200
    have hcap := fetchAllGo_cap resp 200 1 [] st
      (fun i hi1 hi2 => hne i hi1 (by omega))
    unfold fetch_all_products
    rw [hcap]
    refine ⟨by simp [concatPages], ?_, ?_⟩
    · rw [mem_reqsFrom]
      omega
    · intro r hr
      rw [mem_reqsFrom] at hr
      omega
  · obtain ⟨hr1, hr2⟩ := fetchAllGo_reach resp N hempty 200 1 [] st
      (by omega) (by omega) (fun i hi1 hi2 => hne i hi1 hi2)
    have e1 : N + 1 - 1 = N := by omega
    have e2 : N + 2 - 1 = N + 1 := by omega
    rw [e1] at hr1
    rw [e2] at hr2
    unfold fetch_all_products
    refine ⟨by rw [hr1]; simp [concatPages], ?_, ?_⟩
    · rw [hr2, mem_reqsFrom]
      omega
    · intro r hr
      rw [hr2, mem_reqsFrom] at hr
      omega

theorem c1_fetch_all_pages_witness :
    (fetch_all_products demoPages none stats0).1 = concatPages demoPages 1 :=
  (c1_fetch_all_pages demoPages 1 stats0 (by omega)
    (fun i hi1 hi2 => by
      have hi : i = 1 := by omega
      subst hi
      decide)
    (by decide)).1

set_option maxRecDepth 10000 in
/-- C1 counterexample to the claim as stated: for the response sequence
cexPages, pages 1..201 are all non-empty and page 202 is empty, yet
fetch_all_products with no item limit does not return the concatenation
of pages 1..201 — the safety limit stops it after page 200, silently
truncating the catalog. -/
theorem c1_fetch_all_pages_cex :
    ((List.range 201).all fun k => !decide (pageItems cexPages (k + 1) = []))
    ∧ pageItems cexPages 202 = []
    ∧ (fetch_all_products cexPages none stats0).1 ≠ concatPages cexPages 201 := by
  decide

/-! ## Filesystem lemmas and C5, C6, C9, C10, C7 -/

theorem fileExists_fsWrite_self (fs : FS) (p c : String) :
    fileExists (fsWrite fs p c) p = true := by
  simp [fileExists, fsWrite, List.lookup]

theorem fileContent_fsWrite_self (fs : FS) (p c : String) :
    fileContent (fsWrite fs p c) p = some c := by
  simp [fileContent, fsWrite, List.lookup]

/-- C5: download_image is idempotent in the destination path: whenever
the destination file exists it returns True with zero network requests
(for any network behaviour), and two successive calls for the same fresh
destination, the first of which succeeds, perform exactly one network
request in total — one on the first call, none on the second. -/
theorem c5_download_image_idempotent (fs : FS) (filepath content : String)
    (ok2 : Bool) (h : fileExists fs filepath = false) :
    (∀ (fs2 : FS) (p c : String) (ok : Bool), fileExists fs2 p = true →
      download_image ok fs2 p c = (some fs2, 0))
    ∧ download_image true fs filepath content = (some (fsWrite fs filepath content), 1)
    ∧ download_image ok2 (fsWrite fs filepath content) filepath content
        = (some (fsWrite fs filepath content), 0) := by
  refine ⟨?_, ?_, ?_⟩
  · intro fs2 p c ok h2
    simp [download_image, h2]
  · simp [download_image, h]
  · simp [download_image, fileExists_fsWrite_self]

theorem c5_download_image_idempotent_witness :
    download_image true [] "data/images/x.jpg" "bytes"
      = (some (fsWrite [] "data/images/x.jpg" "bytes"), 1) :=
  (c5_download_image_idempotent [] "data/images/x.jpg" "bytes" false rfl).2.1

/-- C6: a product whose handle is missing or empty is rejected by
save_book_data before any write: it returns False, leaves the filesystem
untouched, leaves books_fetched and errors unchanged, and logs a
warning. -/
theorem c6_empty_handle_skipped (p : Product) (fs : FS) (st : Stats)
    (md : HtmlMeta) (eff : WriteEff) (h : p.handle.getD "" = "") :
    (save_book_data fs st p md eff).1 = false
    ∧ (save_book_data fs st p md eff).2.1 = fs
    ∧ (save_book_data fs st p md eff).2.2.books_fetched = st.books_fetched
    ∧ (save_book_data fs st p md eff).2.2.errors = st.errors
    ∧ (save_book_data fs st p md eff).2.2.log = st.log ++ [LogEvent.warnMissingHandle] := by
  refine ⟨?_, ?_, ?_, ?_, ?_⟩ <;> simp [save_book_data, h]

theorem c6_empty_handle_skipped_witness :
    (save_book_data [] stats0 noHandleProd [] WriteEff.ok).1 = false :=
  (c6_empty_handle_skipped noHandleProd [] stats0 [] WriteEff.ok rfl).1

/-- C9 (amended): for a product with a valid handle, a write that
completes without exception stores the full serialized record and
returns True; but a write that raises after k characters — which the
direct open-for-write-then-write of save_book_data permits, since the
open truncates the destination before the content is flushed — is
caught and counted as an error, returns False, and leaves the
destination file holding the k-character partial prefix, so a partial
or truncated file can remain on disk. -/
theorem c9_save_write_outcomes (p : Product) (fs : FS) (st : Stats)
    (md : HtmlMeta) (k : ℕ) (h : ¬p.handle.getD "" = "") :
    ((save_book_data fs st p md WriteEff.ok).1 = true
      ∧ fileContent (save_book_data fs st p md WriteEff.ok).2.1
          (bookPath (p.handle.getD "")) = some (bookJson p md)
      ∧ (save_book_data fs st p md WriteEff.ok).2.2.books_fetched = st.books_fetched + 1
      ∧ (save_book_data fs st p md WriteEff.ok).2.2.errors = st.errors)
    ∧ ((save_book_data fs st p md (WriteEff.raiseAfter k)).1 = false
      ∧ fileContent (save_book_data fs st p md (WriteEff.raiseAfter k)).2.1
          (bookPath (p.handle.getD "")) = some (strTake (bookJson p md) k)
      ∧ (save_book_data fs st p md (WriteEff.raiseAfter k)).2.2.errors = st.errors + 1
      ∧ (save_book_data fs st p md (WriteEff.raiseAfter k)).2.2.books_fetched
          = st.books_fetched) := by
  refine ⟨⟨?_, ?_, ?_, ?_⟩, ?_, ?_, ?_, ?_⟩ <;>
    simp [save_book_data, h, fileContent_fsWrite_self]

theorem c9_save_write_outcomes_witness :
    (save_book_data [] stats0 c9prod [] WriteEff.ok).1 = true :=
  (c9_save_write_outcomes c9prod [] stats0 [] 0 (by decide)).1.1

/-- C9 counterexample to the claim as stated: a concrete save attempt
for a product with handle abc whose write raises after one character
leaves the destination file present but holding neither nothing nor the
full serialized record — a partial file. -/
theorem c9_save_atomicity_cex :
    (save_book_data [] stats0 c9prod [] (WriteEff.raiseAfter 1)).1 = false
    ∧ fileContent (save_book_data [] stats0 c9prod [] (WriteEff.raiseAfter 1)).2.1
        (bookPath "abc") ≠ none
    ∧ fileContent (save_book_data [] stats0 c9prod [] (WriteEff.raiseAfter 1)).2.1
        (bookPath "abc") ≠ some (bookJson c9prod []) := by
  decide

/-- C10: process_product returns True whenever no exception escapes its
stages — in this model every stage catches its own failures, so it
returns True for every product, every environment and every starting
state, even when save_book_data itself returned False because the handle
was missing (or because the save raised and was caught internally via a
failing write outcome). -/
theorem c10_process_product_true (p : Product) (o : Oracles) (fs : FS)
    (st : Stats) (p2 : Product) (o2 : Oracles) (fs2 : FS) (st2 : Stats)
    (h2 : p2.handle.getD "" = "") :
    (process_product p o fs st).1 = true
    ∧ (save_book_data fs2 st2 p2 [] o2.writeEff).1 = false
    ∧ (process_product p2 o2 fs2 st2).1 = true := by
  refine ⟨rfl, ?_, rfl⟩
  simp [save_book_data, h2]

theorem c10_process_product_true_witness :
    (process_product noHandleProd siblingOracle [] stats0).1 = true :=
  (c10_process_product_true noHandleProd siblingOracle [] stats0 noHandleProd
    siblingOracle [] stats0 rfl).2.2

/-- C7: for a product with a valid handle and a single image URL whose
download fails on every attempt, process_product leaves
images_downloaded unchanged, increments the error counter by exactly 1,
still writes the product's own JSON file in full, and returns normally;
moreover a failed image does not abort the remaining images (with two
images, first failing, second succeeding, the second file is written and
counted) nor sibling products (in a batch after the failing product, the
sibling's JSON file is still written and both saves are counted). -/
theorem c7_image_failure_isolated (st : Stats) :
    (process_product imgFailProd imgFailOracle [] st).1 = true
    ∧ (process_product imgFailProd imgFailOracle [] st).2.2.images_downloaded
        = st.images_downloaded
    ∧ (process_product imgFailProd imgFailOracle [] st).2.2.errors = st.errors + 1
    ∧ (process_product imgFailProd imgFailOracle [] st).2.2.books_fetched
        = st.books_fetched + 1
    ∧ fileContent (process_product imgFailProd imgFailOracle [] st).2.1
        (bookPath "book-a") = some (bookJson imgFailProd [])
    ∧ (process_product twoImgProd twoImgOracle [] stats0).2.2.images_downloaded = 1
    ∧ fileContent (process_product twoImgProd twoImgOracle [] stats0).2.1
        "data/images/9782222222222_1.png"
        = some (imageBytes "https://cdn.example.com/b2.png")
    ∧ fileContent
        (process_batch [(imgFailProd, imgFailOracle), (siblingProd, siblingOracle)]
          [] stats0).1 (bookPath "book-c") = some (bookJson siblingProd [])
    ∧ (process_batch [(imgFailProd, imgFailOracle), (siblingProd, siblingOracle)]
        [] stats0).2.books_fetched = 2 :=
  ⟨rfl, rfl, rfl, rfl, rfl, rfl, rfl, rfl, rfl⟩

/-! ## Dimension parsing: C8 -/

theorem pyRound_nearest (q : ℚ) : |(pyRound q : ℚ) - q| ≤ 1 / 2 := by
  have h0 : ((⌊q⌋ : ℤ) : ℚ) ≤ q := Int.floor_le q
  have h1 : q < ((⌊q⌋ : ℤ) : ℚ) + 1 := Int.lt_floor_add_one q
  simp only [pyRound]
  by_cases hc1 : q - ((⌊q⌋ : ℤ) : ℚ) < 1 / 2
  · simp only [if_pos hc1]
    rw [abs_le]
    constructor <;> linarith
  · simp only [if_neg hc1]
    by_cases hc2 : (1 : ℚ) / 2 < q - ((⌊q⌋ : ℤ) : ℚ)
    · simp only [if_pos hc2]
      push_cast
      rw [abs_le]
      constructor <;> linarith
    · simp only [if_neg hc2]
      by_cases hc3 : ⌊q⌋ % 2 = 0
      · simp only [if_pos hc3]
        rw [abs_le]
        constructor <;> linarith
      · simp only [if_neg hc3]
        push_cast
        rw [abs_le]
        constructor <;> linarith

theorem pyRound_frac (I F k : ℕ) (h : F < 10 ^ k) :
    pyRound ((I : ℚ) + (F : ℚ) / (10 : ℚ) ^ k)
      = if 2 * F < 10 ^ k then (I : ℤ)
        else if 10 ^ k < 2 * F then (I : ℤ) + 1
        else if I % 2 = 0 then (I : ℤ) else (I : ℤ) + 1 := by
  have hp : (0 : ℚ) < (10 : ℚ) ^ k := by positivity
  have hfr0 : (0 : ℚ) ≤ (F : ℚ) / (10 : ℚ) ^ k := by positivity
  have hfr1 : (F : ℚ) / (10 : ℚ) ^ k < 1 := by
    rw [div_lt_one hp]
    exact_mod_cast h
  have hfl : ⌊(I : ℚ) + (F : ℚ) / (10 : ℚ) ^ k⌋ = (I : ℤ) := by
    rw [add_comm, Int.floor_add_nat]
    have hz : ⌊(F : ℚ) / (10 : ℚ) ^ k⌋ = 0 := by
      rw [Int.floor_eq_zero_iff]
      exact ⟨hfr0, hfr1⟩
    rw [hz, zero_add]
  have harith : (I : ℚ) + (F : ℚ) / (10 : ℚ) ^ k - (((I : ℤ) : ℚ))
      = (F : ℚ) / (10 : ℚ) ^ k := by
    push_cast
    ring
  have hcast1 : ((F : ℚ) * 2) = ((F * 2 : ℕ) : ℚ) := by push_cast; ring
  have hcast2 : ((10 : ℚ) ^ k) = ((10 ^ k : ℕ) : ℚ) := by push_cast; ring
  have hc1 : ((F : ℚ) / (10 : ℚ) ^ k < 1 / 2) ↔ 2 * F < 10 ^ k := by
    rw [div_lt_div_iff₀ hp (by norm_num : (0 : ℚ) < 2), one_mul, hcast1, hcast2,
      Nat.cast_lt]
    omega
  have hc2 : ((1 : ℚ) / 2 < (F : ℚ) / (10 : ℚ) ^ k) ↔ 10 ^ k < 2 * F := by
    rw [div_lt_div_iff₀ (by norm_num : (0 : ℚ) < 2) hp, one_mul, hcast1, hcast2,
      Nat.cast_lt]
    omega
  have hc3 : ((I : ℤ) % 2 = 0) ↔ I % 2 = 0 := by omega
  simp only [pyRound, hfl, harith, hc1, hc2, hc3]

theorem pyRound_tok (ds fs : List Char) (I F k : ℕ)
    (hI : digitsToNat ds = I) (hF : digitsToNat fs = F) (hk : fs.length = k)
    (h : F < 10 ^ k) (r : ℤ)
    (hr : (if 2 * F < 10 ^ k then (I : ℤ)
      else if 10 ^ k < 2 * F then (I : ℤ) + 1
      else if I % 2 = 0 then (I : ℤ) else (I : ℤ) + 1) = r) :
    pyRound (tokVal ⟨ds, fs⟩) = r := by
  have hv : tokVal ⟨ds, fs⟩ = (I : ℚ) + (F : ℚ) / (10 : ℚ) ^ k := by
    simp only [tokVal, hI, hF, hk]
  rw [hv, pyRound_frac I F k h, hr]

/-- C8: the Mitat field value for the string 147 mm x 222 mm x 35 mm
(with the multiplication sign) is the integer triple 147, 222, 35; every
input whose cleaned text contains fewer than two numeric tokens keeps
its original string value unchanged; comma and period decimal separators
are both accepted and each of the first three tokens is rounded to an
integer at distance at most one half — a nearest integer. -/
theorem c8_dimension_parsing (s : String)
    (h : (findNums ((cleanChars s.data).map
      (fun c => if c = '×' then 'x' else c))).length < 2) :
    mitatValue "147 mm × 222 mm × 35 mm" = FieldValue.dims [147, 222, 35]
    ∧ mitatValue s = FieldValue.text s
    ∧ mitatValue "147,4 mm × 222,6 mm × 35,5 mm" = FieldValue.dims [147, 223, 36]
    ∧ mitatValue "14.5 x 22.5 cm" = FieldValue.dims [14, 22]
    ∧ ∀ q : ℚ, |(pyRound q : ℚ) - q| ≤ 1 / 2 := by
  have tA : pyRound (tokVal ⟨['1', '4', '7'], []⟩) = 147 :=
    pyRound_tok _ _ 147 0 0 (by decide) (by decide) (by decide) (by decide) 147 (by decide)
  have tB : pyRound (tokVal ⟨['2', '2', '2'], []⟩) = 222 :=
    pyRound_tok _ _ 222 0 0 (by decide) (by decide) (by decide) (by decide) 222 (by decide)
  have tC : pyRound (tokVal ⟨['3', '5'], []⟩) = 35 :=
    pyRound_tok _ _ 35 0 0 (by decide) (by decide) (by decide) (by decide) 35 (by decide)
  have tD : pyRound (tokVal ⟨['1', '4', '7'], ['4']⟩) = 147 :=
    pyRound_tok _ _ 147 4 1 (by decide) (by decide) (by decide) (by decide) 147 (by decide)
  have tE : pyRound (tokVal ⟨['2', '2', '2'], ['6']⟩) = 223 :=
    pyRound_tok _ _ 222 6 1 (by decide) (by decide) (by decide) (by decide) 223 (by decide)
  have tF : pyRound (tokVal ⟨['3', '5'], ['5']⟩) = 36 :=
    pyRound_tok _ _ 35 5 1 (by decide) (by decide) (by decide) (by decide) 36 (by decide)
  have tG : pyRound (tokVal ⟨['1', '4'], ['5']⟩) = 14 :=
    pyRound_tok _ _ 14 5 1 (by decide) (by decide) (by decide) (by decide) 14 (by decide)
  have tH : pyRound (tokVal ⟨['2', '2'], ['5']⟩) = 22 :=
    pyRound_tok _ _ 22 5 1 (by decide) (by decide) (by decide) (by decide) 22 (by decide)
  have hn1 : findNums ((cleanChars ("147 mm × 222 mm × 35 mm").data).map
      (fun c => if c = '×' then 'x' else c))
      = [⟨['1', '4', '7'], []⟩, ⟨['2', '2', '2'], []⟩, ⟨['3', '5'], []⟩] := by decide
  have hn2 : findNums ((cleanChars ("147,4 mm × 222,6 mm × 35,5 mm").data).map
      (fun c => if c = '×' then 'x' else c))
      = [⟨['1', '4', '7'], ['4']⟩, ⟨['2', '2', '2'], ['6']⟩, ⟨['3', '5'], ['5']⟩] := by
    decide
  have hn3 : findNums ((cleanChars ("14.5 x 22.5 cm").data).map
      (fun c => if c = '×' then 'x' else c))
      = [⟨['1', '4'], ['5']⟩, ⟨['2', '2'], ['5']⟩] := by decide
  refine ⟨?_, ?_, ?_, ?_, pyRound_nearest⟩
  · simp [mitatValue, parse_dimensions_mm, hn1, tA, tB, tC]
  · simp [mitatValue, parse_dimensions_mm, if_pos h]
  · simp [mitatValue, parse_dimensions_mm, hn2, tD, tE, tF]
  · simp [mitatValue, parse_dimensions_mm, hn3, tG, tH]

theorem c8_dimension_parsing_witness :
    mitatValue "300 sivua" = FieldValue.text "300 sivua" :=
  (c8_dimension_parsing "300 sivua" (by decide)).2.1

end Scraper
